import Mathlib

/-!
# Verification of the go-dcpp ADC hub core

Shallow embedding of the ADC handshake state machine, peer registry and
routing layer of the `hub` package (file containing `adcStageProtocol`,
`adcStageIdentity`, `adcServePeer`, `adcBroadcast`).

Modelling conventions:
* Go maps become association lists (`List (κ × ν)`); map assignment is a
  `cons` (lookup returns the newest binding, like a map overwrite), map
  deletion is a `filter` removing every binding of the key.
* Go sets (`map[T]struct\x7b\x7d`) become `List` with `contains` membership.
* The Tiger hash is external to the repository; it is a parameter
  `tiger : Nat → Nat` of every definition that needs it.
* Wire I/O is modelled by oracles: the packet a `ReadPacket` call yields is
  an input, and each fallible write carries a Boolean telling whether it
  succeeds.  Writes whose error the code discards (`_ = ...`) need no flag.
* Concurrency: each mutex-protected section of the Go code is a single Lean
  function (one atomic step).  Between two lock sections other goroutines
  may mutate the registry; this interference is an input function
  (`env1`, `env2`) applied to the state at the lock-free gaps.  The
  `trace` field of a stage result lists the registry states at the moments
  the stage holds no lock: a concurrent `Peers()` snapshot sees one of them.
-/

/-- Session identifier (`adc.SID`). -/
abbrev SID := Nat

/-- Client identifier, a 192-bit Tiger hash in the source (`adc.CID`);
abstracted to `Nat`. -/
abbrev CID := Nat

/-- ADC user record (`adc.User`), restricted to the fields the hub core
reads or writes: `Id` (CID), `Pid` (private id, `*adc.PID`, hence an
`Option`), `Name` (nick, `NI`), `Ip4` (`I4`). -/
structure AdcUser where
  Id : CID
  Pid : Option Nat
  Name : String
  Ip4 : String
deriving DecidableEq, Repr

/-- The part of `adcPeer` the registry and router see: assigned SID and the
cached user record. -/
structure AdcPeerRec where
  sid : SID
  user : AdcUser
deriving DecidableEq, Repr

/-- A hub peer: a native ADC peer, or a foreign (NMDC-bridged) peer,
which the ADC router cannot write packets to verbatim. -/
inductive Peer where
  | adc (p : AdcPeerRec)
  | foreign (sid : SID) (name : String)
deriving DecidableEq, Repr

/-- The hub-wide peer registry (`h.peers`): three indices over admitted
peers plus two logging-in reservation sets, all guarded by one RW lock. -/
structure PeersState where
  logging : List String
  loggingCID : List CID
  bySID : List (SID × Peer)
  byCID : List (CID × Peer)
  byName : List (String × Peer)
deriving DecidableEq, Repr

/-- The empty registry (fresh hub). -/
def PeersState.empty : PeersState := ⟨[], [], [], [], []⟩

/-- Modelled from the spec: `Hub.listPeers` is not under src (only its
callers are).  Section 4.5 of the spec says `Peers()` is a lock-held
snapshot of the admitted peers, and the data model says `bySID` is
populated by exactly the admitted peers; so the snapshot is the value
column of `bySID`. -/
def listPeers (st : PeersState) : List Peer :=
  st.bySID.map Prod.snd

/-- `u.Id == u.Pid.Hash()` of line 166: the PID check succeeds when a PID
is supplied and its Tiger hash equals the claimed CID. -/
def pidCheck (tiger : Nat → Nat) (u : AdcUser) : Bool :=
  match u.Pid with
  | some p => u.Id == tiger p
  | none => false

/-- Name collision test: `logging` or `byName` knows the nick
(lines 180-181 and 199-200). -/
def nameTaken (u : AdcUser) (st : PeersState) : Bool :=
  st.logging.contains u.Name || (st.byName.lookup u.Name).isSome

/-- CID collision test: `loggingCID` or `byCID` knows the CID
(lines 182-183 and 208-209). -/
def cidTaken (u : AdcUser) (st : PeersState) : Bool :=
  st.loggingCID.contains u.Id || (st.byCID.lookup u.Id).isSome

/-- The optimistic uniqueness pre-check of lines 179-195, performed under
the shared read lock: name collision reports code 22, then CID collision
reports code 24. -/
def identPreCheck (u : AdcUser) (st : PeersState) : Option Nat :=
  if nameTaken u st then some 22
  else if cidTaken u st then some 24
  else none

/-- The uniqueness commit of lines 198-220: one exclusive-lock critical
section.  Re-checks name first (22), then CID (24); when both are clear,
inserts the nick into `logging` and the CID into `loggingCID` in the same
lock acquisition.  On a collision the state is returned unchanged. -/
def identCommit (u : AdcUser) (st : PeersState) : Option Nat × PeersState :=
  if nameTaken u st then (some 22, st)
  else if cidTaken u st then (some 24, st)
  else (none, { st with logging := u.Name :: st.logging,
                        loggingCID := u.Id :: st.loggingCID })

/-- The `unbind` closure of lines 222-227: under the exclusive lock,
delete the nick from `logging` and the CID from `loggingCID`. -/
def unbind (u : AdcUser) (st : PeersState) : PeersState :=
  { st with logging := st.logging.filter (fun n => n != u.Name),
            loggingCID := st.loggingCID.filter (fun c => c != u.Id) }

/-- The admission critical section of lines 267-279: one exclusive-lock
step that deletes the reservations, snapshots the admitted peer list
(before inserting, so the snapshot excludes the new peer), and inserts the
peer into `bySID`, `byCID` and `byName`. -/
def identAdmit (peer : AdcPeerRec) (st : PeersState) : List Peer × PeersState :=
  let stA : PeersState :=
    { st with logging := st.logging.filter (fun n => n != peer.user.Name),
              loggingCID := st.loggingCID.filter (fun c => c != peer.user.Id) }
  let list := listPeers stA
  let stB : PeersState :=
    { stA with bySID := (peer.sid, Peer.adc peer) :: stA.bySID,
               byCID := (peer.user.Id, Peer.adc peer) :: stA.byCID,
               byName := (peer.user.Name, Peer.adc peer) :: stA.byName }
  (list, stB)

/-- Outcome of the Identity-stage `ReadPacket`/type-check/unmarshal
prologue (lines 152-165): the error cases, or a decoded `adc.User`. -/
inductive IdentRead where
  | readErr
  | notBroadcast
  | wrongCmd
  | badUnmarshal
  | user (u : AdcUser)
deriving Repr

/-- External inputs of one `adcStageIdentity` run: what the read yields,
the transport's remote address (`peer.addr.String()`), the outcome of each
checked write, and the interference of other goroutines at the two
lock-free gaps (`env1` between `RUnlock` and `Lock`, `env2` between the
commit unlock and the final lock section). -/
structure IdentIn where
  read : IdentRead
  remoteAddr : String
  hubInfoOk : Bool
  /-- Success of the `adc.Status` success write of lines 246-250.  The
  source assigns its error to `err` but never tests it before `err` is
  overwritten on line 253, so this flag does not influence control flow. -/
  statusOk : Bool
  joinListOk : Bool
  joinSelfOk : Bool
  env1 : PeersState → PeersState
  env2 : PeersState → PeersState

/-- Observable outcome of `adcStageIdentity`: whether it returned `nil`,
which fatal STA code (if any) was sent, the final registry state, the
trace of registry states at lock-free moments, the user record cached on
the peer (line 233) if that point was reached, and the admission snapshot
passed to `broadcastUserJoin` if admission happened. -/
structure IdentResult where
  ok : Bool
  fatalSent : Option Nat
  finalState : PeersState
  trace : List PeersState
  storedUser : Option AdcUser
  snapshot : Option (List Peer)
deriving Repr

/-- An early Identity failure: error before any registry mutation. -/
def mkIdentErr (code : Option Nat) (st : PeersState) : IdentResult :=
  ⟨false, code, st, [st], none, none⟩

/-- `Hub.adcStageIdentity` (lines 149-285), from the read prologue to
admission.  Mirrors the source order: PID check (fatal 27), clear PID,
empty-nick check (fatal 21), shared-lock pre-check (22/24), exclusive-lock
commit (22/24 or reserve), IPv4 fill, cache record, hub-info write,
status write (error discarded by the source), two `PeersJoin` writes
(each failure unbinds), then the admission critical section. -/
def adcStageIdentity (tiger : Nat → Nat) (sid : SID) (inp : IdentIn)
    (st0 : PeersState) : IdentResult :=
  match inp.read with
  | .readErr => mkIdentErr none st0
  | .notBroadcast => mkIdentErr none st0
  | .wrongCmd => mkIdentErr none st0
  | .badUnmarshal => mkIdentErr none st0
  | .user u0 =>
    if pidCheck tiger u0 = false then mkIdentErr (some 27) st0
    else
      let u1 : AdcUser := { u0 with Pid := none }
      if u1.Name = "" then mkIdentErr (some 21) st0
      else
        match identPreCheck u1 st0 with
        | some c => mkIdentErr (some c) st0
        | none =>
          let st1 := inp.env1 st0
          match identCommit u1 st1 with
          | (some c, _) =>
            ⟨false, some c, st1, [st0, st1], none, none⟩
          | (none, st2) =>
            let u2 := if u1.Ip4 = "" then { u1 with Ip4 := inp.remoteAddr } else u1
            let peer : AdcPeerRec := ⟨sid, u2⟩
            if inp.hubInfoOk = false then
              let st3 := unbind u2 (inp.env2 st2)
              ⟨false, none, st3, [st0, st2, st3], some u2, none⟩
            else if inp.joinListOk = false then
              let st3 := unbind u2 (inp.env2 st2)
              ⟨false, none, st3, [st0, st2, st3], some u2, none⟩
            else if inp.joinSelfOk = false then
              let st3 := unbind u2 (inp.env2 st2)
              ⟨false, none, st3, [st0, st2, st3], some u2, none⟩
            else
              let pr := identAdmit peer (inp.env2 st2)
              ⟨true, none, pr.2, [st0, st2, pr.2], some u2, some pr.1⟩

/-- Outcome of the Protocol-stage read prologue (lines 89-102): error
cases, or a decoded `adc.Supported` carrying the client's feature set. -/
inductive ProtoRead where
  | readErr
  | notHubPkt
  | wrongCmd
  | badUnmarshal
  | sup (features : List String)
deriving Repr

/-- External inputs of one `adcStageProtocol` run: the read outcome, the
SID `h.nextSID()` returns, and the success of each checked write/flush. -/
structure ProtoIn where
  read : ProtoRead
  sid : SID
  supWriteOk : Bool
  sidWriteOk : Bool
  flushOk : Bool
deriving Repr

/-- The distinct error exits of `adcStageProtocol`. -/
inductive ProtoErr where
  | readErr
  | notHubPkt
  | wrongCmd
  | badUnmarshal
  /-- line 114: client does not support BASE -/
  | noBase
  /-- line 116: client does not support TIGR -/
  | noTigr
  | writeErr
deriving DecidableEq, Repr

/-- The peer object the Protocol stage yields (line 138): assigned SID and
the mutual feature set; the registry is untouched. -/
structure ProtoPeer where
  sid : SID
  fea : List String
deriving DecidableEq, Repr

/-- An info message written to the client during the Protocol stage. -/
inductive InfoMsg where
  | supported (features : List String)
  | sidAssign (sid : SID)
deriving DecidableEq, Repr

/-- The hub's advertised feature set (lines 103-110). -/
def hubFeatures : List String := ["BASE", "BAS0", "TIGR", "PING"]

/-- Modelled from the spec: `adc.ModFeatures.Intersect` and `IsSet` are in
the `adc` package, which is not under src (the spec scopes the wire codec
out).  Section 4.1 says the stage intersects the client features with the
hub's advertised set, so `Intersect` is set intersection and `IsSet` is
membership in the resulting set. -/
def feaIntersect (a b : List String) : List String :=
  a.filter (fun f => b.contains f)

/-- `Hub.adcStageProtocol` (lines 86-147): read `SUP`, intersect features,
reject when neither BASE nor BAS0 is mutual, reject when TIGR is not
mutual, then write the hub `SUP`, allocate a SID, write the `SID`
assignment, flush, and yield the peer object.  `writes` lists the
`WriteInfoMsg` calls attempted, in order. -/
structure ProtoResult where
  res : Except ProtoErr ProtoPeer
  writes : List InfoMsg
deriving Repr

def adcStageProtocol (inp : ProtoIn) : ProtoResult :=
  match inp.read with
  | .readErr => ⟨.error .readErr, []⟩
  | .notHubPkt => ⟨.error .notHubPkt, []⟩
  | .wrongCmd => ⟨.error .wrongCmd, []⟩
  | .badUnmarshal => ⟨.error .badUnmarshal, []⟩
  | .sup clientFeats =>
    let mutualFea := feaIntersect hubFeatures clientFeats
    if !(mutualFea.contains "BASE") && !(mutualFea.contains "BAS0") then
      ⟨.error .noBase, []⟩
    else if !(mutualFea.contains "TIGR") then
      ⟨.error .noTigr, []⟩
    else if inp.supWriteOk = false then
      ⟨.error .writeErr, [.supported hubFeatures]⟩
    else if inp.sidWriteOk = false then
      ⟨.error .writeErr, [.supported hubFeatures, .sidAssign inp.sid]⟩
    else if inp.flushOk = false then
      ⟨.error .writeErr, [.supported hubFeatures, .sidAssign inp.sid]⟩
    else
      ⟨.ok ⟨inp.sid, mutualFea⟩, [.supported hubFeatures, .sidAssign inp.sid]⟩

/-- An ADC packet as the serving loop distinguishes them: the three SID-
tagged kinds the `switch` of lines 54-81 handles, and two representatives
of the kinds it does not (an info packet and a hub-directed packet). -/
inductive Packet where
  | broadcast (id : SID) (body : String)
  | echo (id : SID) (targ : SID) (body : String)
  | direct (id : SID) (targ : SID) (body : String)
  | info (body : String)
  | hubDirected (body : String)
deriving DecidableEq, Repr

/-- One `ReadPacket` outcome in the serving loop, with the success flags
of the write-back performed inline for an Echo packet. -/
inductive ReadEvent where
  | eof
  | readErr
  | pkt (p : Packet) (echoWriteOk : Bool) (echoFlushOk : Bool)
deriving Repr

/-- How a run of the serving loop ended. -/
inductive ServeExit where
  /-- `io.EOF`: the loop returns `nil` (line 50). -/
  | normalExit
  /-- any other read error (line 52). -/
  | readError
  /-- fatal: broadcast whose originator SID is not the peer's (line 57). -/
  | malformedBroadcast
  /-- fatal: echo whose originator SID is not the peer's (line 65). -/
  | malformedEcho
  /-- fatal: direct whose originator SID is not the peer's (line 77). -/
  | malformedDirect
  /-- `WritePacket`/`Flush` failure on the echo write-back (lines 67-72). -/
  | echoWriteError
  /-- model artifact: the finite event list ran out; the Go loop would
  keep reading. -/
  | fuelOut
deriving DecidableEq, Repr

/-- Observable actions of a serving-loop run.  Every processed packet is
also logged (line 82); `unhandled` lists the packets that matched no case
of the `switch` and were therefore only logged. -/
structure ServeOut where
  exit : ServeExit
  broadcasts : List Packet
  echoesBack : List Packet
  directs : List Packet
  unhandled : List Packet
deriving DecidableEq, Repr

/-- `Hub.adcServePeer` (lines 46-84) over a finite list of read events.
A valid Broadcast is handed to `go h.adcBroadcast` with a `h.Peers()`
snapshot; a valid Echo is written back to the sender, flushed, and handed
to `go h.adcDirect` as a Direct packet; a valid Direct is handed to
`go h.adcDirect`; anything else falls through the switch and is only
logged. -/
def adcServePeer (sid : SID) (evs : List ReadEvent) : ServeOut :=
  match evs with
  | [] => ⟨.fuelOut, [], [], [], []⟩
  | .eof :: _ => ⟨.normalExit, [], [], [], []⟩
  | .readErr :: _ => ⟨.readError, [], [], [], []⟩
  | .pkt p wOk fOk :: rest =>
    match p with
    | .broadcast i body =>
      if sid != i then ⟨.malformedBroadcast, [], [], [], []⟩
      else
        let r := adcServePeer sid rest
        { r with broadcasts := Packet.broadcast i body :: r.broadcasts }
    | .echo i targ body =>
      if sid != i then ⟨.malformedEcho, [], [], [], []⟩
      else if wOk = false then ⟨.echoWriteError, [], [], [], []⟩
      else if fOk = false then ⟨.echoWriteError, [], [], [], []⟩
      else
        let r := adcServePeer sid rest
        { r with echoesBack := Packet.echo i targ body :: r.echoesBack,
                 directs := Packet.direct i targ body :: r.directs }
    | .direct i targ body =>
      if sid != i then ⟨.malformedDirect, [], [], [], []⟩
      else
        let r := adcServePeer sid rest
        { r with directs := Packet.direct i targ body :: r.directs }
    | .info body =>
      let r := adcServePeer sid rest
      { r with unhandled := Packet.info body :: r.unhandled }
    | .hubDirected body =>
      let r := adcServePeer sid rest
      { r with unhandled := Packet.hubDirected body :: r.unhandled }

/-- Actions of one `adcBroadcast` fan-out: the native peers the packet was
written (verbatim) and flushed to — both write errors are discarded by the
source (`_ =`, lines 294-295), so every native peer in the list gets the
write attempt — and the foreign peers collected for chat translation. -/
structure BroadcastOut where
  adcWrites : List (AdcPeerRec × Packet)
  nmdcPeers : List Peer
deriving DecidableEq, Repr

/-- `Hub.adcBroadcast` (lines 287-313) restricted to the fan-out loop;
the callers in the serving loop always pass the non-nil `h.Peers()`
snapshot, so the `peers == nil` refetch of line 288 is not taken. -/
def adcBroadcast (p : Packet) (peers : List Peer) : BroadcastOut :=
  match peers with
  | [] => ⟨[], []⟩
  | Peer.adc pr :: rest =>
    let r := adcBroadcast p rest
    ⟨(pr, p) :: r.adcWrites, r.nmdcPeers⟩
  | Peer.foreign s n :: rest =>
    let r := adcBroadcast p rest
    ⟨r.adcWrites, Peer.foreign s n :: r.nmdcPeers⟩

/-! ## Helper lemmas -/

/-- The shared-lock pre-check only ever reports code 22 or 24. -/
theorem identPreCheck_code (u : AdcUser) (st : PeersState) (c : Nat)
    (h : identPreCheck u st = some c) : c = 22 ∨ c = 24 := by
  unfold identPreCheck at h
  split at h <;> simp_all

/-- The exclusive-lock commit only ever reports code 22 or 24. -/
theorem identCommit_code (u : AdcUser) (st : PeersState) (c : Nat)
    (h : (identCommit u st).1 = some c) : c = 22 ∨ c = 24 := by
  unfold identCommit at h
  split at h <;> simp_all
  split at h <;> simp_all

/-- A successful lookup finds a value stored in the list. -/
theorem lookup_some_mem_values {κ ν : Type} [BEq κ] (l : List (κ × ν)) (k : κ)
    (v : ν) (h : l.lookup k = some v) : v ∈ l.map Prod.snd := by
  induction l with
  | nil => simp [List.lookup] at h
  | cons hd tl ih =>
    rw [List.lookup] at h
    by_cases hk : (k == hd.1) = true
    · simp [hk] at h
      simp [← h]
    · simp [hk] at h
      simp [ih h]

/-! ## C1: the PID admission gate -/

/-- C1: during the Identity stage a peer passes the PID check iff the
Tiger hash of the supplied PID equals the claimed CID; on mismatch the hub
sends a fatal STA with code 27 and the stage returns an error with the
registry (indices and reservation sets) untouched — the final state is the
initial one and the trace exposes no other state. -/
theorem identity_pid_gate (tiger : Nat → Nat) (sid : SID) (inp : IdentIn)
    (st0 : PeersState) (u : AdcUser) (p : Nat)
    (hread : inp.read = .user u) (hp : u.Pid = some p) :
    (tiger p ≠ u.Id →
      adcStageIdentity tiger sid inp st0 = mkIdentErr (some 27) st0) ∧
    (tiger p = u.Id →
      (adcStageIdentity tiger sid inp st0).fatalSent ≠ some 27) := by
  have hpc : pidCheck tiger u = (u.Id == tiger p) := by
    simp [pidCheck, hp]
  constructor
  · intro hne
    have hfalse : pidCheck tiger u = false := by
      rw [hpc]
      exact beq_eq_false_iff_ne.mpr fun h => hne h.symm
    simp [adcStageIdentity, hread, hfalse]
  · intro heq
    have htrue : pidCheck tiger u = true := by
      rw [hpc]
      exact beq_iff_eq.mpr heq.symm
    simp only [adcStageIdentity, hread, htrue]
    simp only [Bool.true_eq_false, if_false]
    split
    · simp [mkIdentErr]
    · split
      · next c hc =>
        rcases identPreCheck_code _ _ _ hc with h | h <;> simp [mkIdentErr, h]
      · split
        · next c st' hc =>
          have : (identCommit { u with Pid := none } (inp.env1 st0)).1 = some c := by
            rw [hc]
          rcases identCommit_code _ _ _ this with h | h <;> simp [h]
        · split
          · simp
          · split
            · simp
            · split <;> simp

/-- A concrete Tiger stand-in for witness runs. -/
def idTiger : Nat → Nat := fun p => p

/-- Concrete Identity-stage input whose PID hashes to a different CID. -/
def c1BadIn : IdentIn :=
  { read := .user ⟨6, some 5, "alice", ""⟩, remoteAddr := "1.2.3.4:1000",
    hubInfoOk := true, statusOk := true, joinListOk := true,
    joinSelfOk := true, env1 := id, env2 := id }

/-- Concrete Identity-stage input whose PID hashes to the claimed CID. -/
def c1GoodIn : IdentIn :=
  { c1BadIn with read := .user ⟨5, some 5, "alice", ""⟩ }

/-- Witness for the PID gate theorem at concrete inputs. -/
theorem identity_pid_gate_witness :
    adcStageIdentity idTiger 7 c1BadIn PeersState.empty =
      mkIdentErr (some 27) PeersState.empty ∧
    (adcStageIdentity idTiger 7 c1GoodIn PeersState.empty).fatalSent ≠
      some 27 :=
  ⟨(identity_pid_gate idTiger 7 c1BadIn PeersState.empty
      ⟨6, some 5, "alice", ""⟩ 5 rfl rfl).1 (by decide),
   (identity_pid_gate idTiger 7 c1GoodIn PeersState.empty
      ⟨5, some 5, "alice", ""⟩ 5 rfl rfl).2 rfl⟩

/-! ## C4: PID non-retention -/

/-- C4: whenever the Identity stage completes (returns `nil`), a user
record was cached on the peer, and on every path that caches a record the
cached record's PID is `none` — the PID is cleared (line 171) before the
record is stored (line 233), so no later code can observe a stored PID. -/
theorem identity_pid_not_retained (tiger : Nat → Nat) (sid : SID)
    (inp : IdentIn) (st0 : PeersState) :
    ((adcStageIdentity tiger sid inp st0).ok = true →
      (adcStageIdentity tiger sid inp st0).storedUser ≠ none) ∧
    (∀ u, (adcStageIdentity tiger sid inp st0).storedUser = some u →
      u.Pid = none) := by
  unfold adcStageIdentity
  cases hread : inp.read <;> simp [mkIdentErr]
  next u0 =>
  split
  · simp [mkIdentErr]
  · split
    · simp [mkIdentErr]
    · split
      · simp [mkIdentErr]
      · split
        · simp
        · split
          · split <;> simp
          · split
            · split <;> simp
            · split
              · split <;> simp
              · split <;> simp

/-- Witness for PID non-retention at a concrete successful run. -/
theorem identity_pid_not_retained_witness :
    (adcStageIdentity idTiger 7 c1GoodIn PeersState.empty).storedUser ≠
      none ∧
    (⟨5, none, "alice", "1.2.3.4:1000"⟩ : AdcUser).Pid = none :=
  ⟨(identity_pid_not_retained idTiger 7 c1GoodIn PeersState.empty).1 rfl,
   (identity_pid_not_retained idTiger 7 c1GoodIn PeersState.empty).2
      ⟨5, none, "alice", "1.2.3.4:1000"⟩ rfl⟩

/-! ## C8: IPv4 fill -/

/-- Helper: whenever `adcStageIdentity` caches a record, the cached record
is the supplied one with the PID cleared and, when the supplied IPv4 was
empty, the IPv4 filled from the transport's remote address. -/
theorem identity_storedUser_eq (tiger : Nat → Nat) (sid : SID)
    (inp : IdentIn) (st0 : PeersState) (u : AdcUser)
    (hread : inp.read = .user u) :
    (adcStageIdentity tiger sid inp st0).storedUser = none ∨
    (adcStageIdentity tiger sid inp st0).storedUser =
      some (if u.Ip4 = "" then { u with Pid := none, Ip4 := inp.remoteAddr }
            else { u with Pid := none }) := by
  unfold adcStageIdentity
  rw [hread]
  simp only
  split
  · simp [mkIdentErr]
  · split
    · simp [mkIdentErr]
    · split
      · simp [mkIdentErr]
      · split
        · simp
        · split
          · split <;> simp
          · split
            · split <;> simp
            · split
              · split <;> simp
              · split <;> simp

/-- Concrete Identity-stage input with a non-empty IPv4 field. -/
def c8In : IdentIn :=
  { read := .user ⟨5, some 5, "alice", "9.9.9.9"⟩,
    remoteAddr := "1.2.3.4:1000", hubInfoOk := true, statusOk := true,
    joinListOk := true, joinSelfOk := true, env1 := id, env2 := id }

/-- C8 counterexample: a record with a non-empty IPv4 field is NOT cached
unmodified — the run completes, yet the cached record differs from the
client-supplied one, because the PID was cleared before caching. -/
theorem ipv4_unmodified_counterexample :
    (adcStageIdentity idTiger 7 c8In PeersState.empty).ok = true ∧
    (⟨5, some 5, "alice", "9.9.9.9"⟩ : AdcUser).Ip4 ≠ "" ∧
    (adcStageIdentity idTiger 7 c8In PeersState.empty).storedUser ≠
      some ⟨5, some 5, "alice", "9.9.9.9"⟩ :=
  ⟨rfl, by decide, by decide⟩

/-- C8 (amended): whenever a record is cached on the peer, an empty
supplied IPv4 field is filled with the transport's remote address, and a
non-empty one is kept; in both cases the cached record is otherwise the
supplied record with only the PID cleared. -/
theorem identity_ipv4_fill (tiger : Nat → Nat) (sid : SID) (inp : IdentIn)
    (st0 : PeersState) (u : AdcUser)
    (hread : inp.read = .user u)
    (hstored : (adcStageIdentity tiger sid inp st0).storedUser ≠ none) :
    (u.Ip4 = "" →
      (adcStageIdentity tiger sid inp st0).storedUser =
        some { u with Pid := none, Ip4 := inp.remoteAddr }) ∧
    (u.Ip4 ≠ "" →
      (adcStageIdentity tiger sid inp st0).storedUser =
        some { u with Pid := none }) := by
  rcases identity_storedUser_eq tiger sid inp st0 u hread with h | h
  · exact absurd h hstored
  · constructor
    · intro hip
      rw [h, if_pos hip]
    · intro hip
      rw [h, if_neg hip]

/-- Witness for the IPv4-fill theorem at two concrete runs: one with a
non-empty supplied IPv4 (kept), one with an empty supplied IPv4 (filled
from the remote address). -/
theorem identity_ipv4_fill_witness :
    (adcStageIdentity idTiger 7 c8In PeersState.empty).storedUser =
      some ⟨5, none, "alice", "9.9.9.9"⟩ ∧
    (adcStageIdentity idTiger 7 c1GoodIn PeersState.empty).storedUser =
      some ⟨5, none, "alice", "1.2.3.4:1000"⟩ :=
  ⟨(identity_ipv4_fill idTiger 7 c8In PeersState.empty
      ⟨5, some 5, "alice", "9.9.9.9"⟩ rfl (by decide)).2 (by decide),
   (identity_ipv4_fill idTiger 7 c1GoodIn PeersState.empty
      ⟨5, some 5, "alice", ""⟩ rfl (by decide)).1 rfl⟩

/-! ## C9: name collision is tested before CID collision -/

/-- C9: in both the shared-lock pre-check and the exclusive-lock re-check
the Name collision is tested first, so when Name and CID are both taken
the reported code is 22 (nick taken), and code 24 (CID taken) is reported
only when the Name is free but the CID collides. -/
theorem collision_order_name_first (u : AdcUser) (st : PeersState) :
    (nameTaken u st = true →
       identPreCheck u st = some 22 ∧ identCommit u st = (some 22, st)) ∧
    (identPreCheck u st = some 24 →
       nameTaken u st = false ∧ cidTaken u st = true) ∧
    ((identCommit u st).1 = some 24 →
       nameTaken u st = false ∧ cidTaken u st = true) := by
  refine ⟨fun h => ⟨?_, ?_⟩, fun h => ?_, fun h => ?_⟩
  · unfold identPreCheck
    rw [if_pos h]
  · unfold identCommit
    rw [if_pos h]
  · unfold identPreCheck at h
    by_cases hn : nameTaken u st = true
    · rw [if_pos hn] at h
      simp at h
    · simp only [Bool.not_eq_true] at hn
      refine ⟨hn, ?_⟩
      by_cases hc : cidTaken u st = true
      · exact hc
      · simp only [hn, Bool.false_eq_true, if_false] at h
        simp only [Bool.not_eq_true] at hc
        rw [hc] at h
        simp at h
  · unfold identCommit at h
    by_cases hn : nameTaken u st = true
    · rw [if_pos hn] at h
      simp at h
    · simp only [Bool.not_eq_true] at hn
      refine ⟨hn, ?_⟩
      by_cases hc : cidTaken u st = true
      · exact hc
      · simp only [hn, Bool.false_eq_true, if_false] at h
        simp only [Bool.not_eq_true] at hc
        rw [hc] at h
        simp at h

/-- Registry with the nick `alice` and the CID 5 both reserved. -/
def bothTakenState : PeersState := ⟨["alice"], [5], [], [], []⟩

/-- Registry with only the CID 5 reserved. -/
def cidOnlyState : PeersState := ⟨[], [5], [], [], []⟩

/-- Witness: with `alice` and CID 5 both taken, both check passes report
code 22; with only the CID taken, a code-24 report implies a free name. -/
theorem collision_order_name_first_witness :
    identPreCheck ⟨5, none, "alice", ""⟩ bothTakenState = some 22 ∧
    identCommit ⟨5, none, "alice", ""⟩ bothTakenState =
      (some 22, bothTakenState) ∧
    (nameTaken ⟨5, none, "alice", ""⟩ cidOnlyState = false ∧
     cidTaken ⟨5, none, "alice", ""⟩ cidOnlyState = true) :=
  ⟨((collision_order_name_first ⟨5, none, "alice", ""⟩ bothTakenState).1
      (by decide)).1,
   ((collision_order_name_first ⟨5, none, "alice", ""⟩ bothTakenState).1
      (by decide)).2,
   (collision_order_name_first ⟨5, none, "alice", ""⟩ cidOnlyState).2.2
      (by decide)⟩

/-! ## C3: the uniqueness commit -/

/-- C3: once the Identity stage reaches the exclusive-lock commit (PID
check passed, non-empty nick, shared-lock pre-check clear), both
collisions are re-checked against the state at lock entry
(`inp.env1 st0`, which may differ from `st0` because of a concurrent
join): a Name collision makes the hub send fatal code 22 and a CID
collision fatal code 24, each returning an error with the registry
exactly as found at lock entry (no partial insertion, trace exposes
nothing else); when both are clear, the commit critical section inserts
the Name into `logging` and the CID into `loggingCID` together, in that
one lock acquisition. -/
theorem identity_commit_recheck (tiger : Nat → Nat) (sid : SID)
    (inp : IdentIn) (st0 : PeersState) (u : AdcUser)
    (hread : inp.read = .user u) (hpid : pidCheck tiger u = true)
    (hnick : u.Name ≠ "")
    (hpre : identPreCheck { u with Pid := none } st0 = none) :
    (nameTaken u (inp.env1 st0) = true →
       adcStageIdentity tiger sid inp st0 =
         ⟨false, some 22, inp.env1 st0, [st0, inp.env1 st0],
          none, none⟩) ∧
    (nameTaken u (inp.env1 st0) = false →
     cidTaken u (inp.env1 st0) = true →
       adcStageIdentity tiger sid inp st0 =
         ⟨false, some 24, inp.env1 st0, [st0, inp.env1 st0],
          none, none⟩) ∧
    (nameTaken u (inp.env1 st0) = false →
     cidTaken u (inp.env1 st0) = false →
       identCommit { u with Pid := none } (inp.env1 st0) =
         (none, { inp.env1 st0 with
                    logging := u.Name :: (inp.env1 st0).logging,
                    loggingCID := u.Id :: (inp.env1 st0).loggingCID })) := by
  have hnt : ∀ st, nameTaken { u with Pid := none } st = nameTaken u st :=
    fun st => rfl
  have hct : ∀ st, cidTaken { u with Pid := none } st = cidTaken u st :=
    fun st => rfl
  refine ⟨fun hname => ?_, fun hname hcid => ?_, fun hname hcid => ?_⟩
  · have hc : identCommit { u with Pid := none } (inp.env1 st0) =
        (some 22, inp.env1 st0) := by
      unfold identCommit
      rw [hnt, if_pos hname]
    unfold adcStageIdentity
    rw [hread]
    simp only [hpid, hpre, hc]
    simp [hnick]
  · have hc : identCommit { u with Pid := none } (inp.env1 st0) =
        (some 24, inp.env1 st0) := by
      unfold identCommit
      rw [hnt, hct, hname, hcid]
      simp
    unfold adcStageIdentity
    rw [hread]
    simp only [hpid, hpre, hc]
    simp [hnick]
  · unfold identCommit
    rw [hnt, hct, hname, hcid]
    simp

/-- Concrete Identity input where a concurrent join reserves `alice`
between the shared-lock pre-check and the exclusive-lock commit. -/
def c3In22 : IdentIn :=
  { read := .user ⟨5, some 5, "alice", ""⟩, remoteAddr := "1.2.3.4:1000",
    hubInfoOk := true, statusOk := true, joinListOk := true,
    joinSelfOk := true,
    env1 := fun st => { st with logging := "alice" :: st.logging },
    env2 := id }

/-- Witness: the raced-in nick is caught by the exclusive-lock re-check,
fatal code 22 is sent, and the registry is left exactly as the commit
found it. -/
theorem identity_commit_recheck_witness :
    adcStageIdentity idTiger 7 c3In22 PeersState.empty =
      ⟨false, some 22, ⟨["alice"], [], [], [], []⟩,
       [PeersState.empty, ⟨["alice"], [], [], [], []⟩], none, none⟩ :=
  (identity_commit_recheck idTiger 7 c3In22 PeersState.empty
      ⟨5, some 5, "alice", ""⟩ rfl rfl (by decide) rfl).1 (by decide)

/-! ## C2: admission atomicity -/

/-- C2: the admission critical section `identAdmit` (the single
exclusive-lock acquisition of lines 267-279) removes the Name and CID
reservations, snapshots the admitted peer list — a snapshot that excludes
the newly admitted peer — and inserts the peer into `bySID`, `byCID` and
`byName`, all in the one atomic step.  A concurrent `Peers()` snapshot can
run only before or after the step: before it the peer is in no index (the
hypotheses), after it the peer is in all three (the conclusion), so the
transition is observed atomically. -/
theorem admission_atomic (peer : AdcPeerRec) (st : PeersState)
    (h1 : Peer.adc peer ∉ st.bySID.map Prod.snd)
    (h2 : Peer.adc peer ∉ st.byCID.map Prod.snd)
    (h3 : Peer.adc peer ∉ st.byName.map Prod.snd) :
    Peer.adc peer ∉ (identAdmit peer st).1 ∧
    peer.user.Name ∉ (identAdmit peer st).2.logging ∧
    peer.user.Id ∉ (identAdmit peer st).2.loggingCID ∧
    (identAdmit peer st).2.bySID.lookup peer.sid =
      some (Peer.adc peer) ∧
    (identAdmit peer st).2.byCID.lookup peer.user.Id =
      some (Peer.adc peer) ∧
    (identAdmit peer st).2.byName.lookup peer.user.Name =
      some (Peer.adc peer) ∧
    Peer.adc peer ∈ (identAdmit peer st).2.bySID.map Prod.snd ∧
    Peer.adc peer ∈ (identAdmit peer st).2.byCID.map Prod.snd ∧
    Peer.adc peer ∈ (identAdmit peer st).2.byName.map Prod.snd ∧
    (Peer.adc peer ∉ st.bySID.map Prod.snd ∧
     Peer.adc peer ∉ st.byCID.map Prod.snd ∧
     Peer.adc peer ∉ st.byName.map Prod.snd) := by
  unfold identAdmit listPeers
  simp only
  refine ⟨h1, ?_, ?_, ?_, ?_, ?_, ?_, ?_, ?_, h1, h2, h3⟩ <;>
    simp [List.mem_filter, List.lookup]

/-- The peer being admitted in the admission witness. -/
def alicePeer : AdcPeerRec := ⟨7, ⟨5, none, "alice", "1.2.3.4"⟩⟩

/-- An already admitted peer present during the admission witness. -/
def bobPeer : AdcPeerRec := ⟨3, ⟨9, none, "bob", "5.6.7.8"⟩⟩

/-- Registry just before `alice` is admitted: her Name and CID reserved,
`bob` admitted in all three indices. -/
def preAdmitState : PeersState :=
  ⟨["alice"], [5], [(3, Peer.adc bobPeer)], [(9, Peer.adc bobPeer)],
   [("bob", Peer.adc bobPeer)]⟩

/-- Witness: admitting `alice` over `preAdmitState` yields a snapshot
without her, indexes her under her nick, and drops her reservation. -/
theorem admission_atomic_witness :
    Peer.adc alicePeer ∉ (identAdmit alicePeer preAdmitState).1 ∧
    (identAdmit alicePeer preAdmitState).2.byName.lookup "alice" =
      some (Peer.adc alicePeer) ∧
    "alice" ∉ (identAdmit alicePeer preAdmitState).2.logging :=
  ⟨(admission_atomic alicePeer preAdmitState
      (by decide) (by decide) (by decide)).1,
   (admission_atomic alicePeer preAdmitState
      (by decide) (by decide) (by decide)).2.2.2.2.2.1,
   (admission_atomic alicePeer preAdmitState
      (by decide) (by decide) (by decide)).2.1⟩

/-! ## C5: protocol-stage feature negotiation -/

/-- C5: after intersecting the client's features with the hub set
(BASE, BAS0, TIGR, PING), the Protocol stage fails with the BASE error
when neither BASE nor BAS0 is mutual, fails with the distinct TIGR error
when TIGR is not mutual, and otherwise proceeds to write the hub `SUP`
followed by the freshly allocated SID assignment, yielding the peer when
all writes succeed. -/
theorem protocol_feature_negotiation (inp : ProtoIn) (fs : List String)
    (hread : inp.read = .sup fs) :
    ((feaIntersect hubFeatures fs).contains "BASE" = false →
     (feaIntersect hubFeatures fs).contains "BAS0" = false →
       adcStageProtocol inp = ⟨.error .noBase, []⟩) ∧
    (((feaIntersect hubFeatures fs).contains "BASE" = true ∨
      (feaIntersect hubFeatures fs).contains "BAS0" = true) →
     (feaIntersect hubFeatures fs).contains "TIGR" = false →
       adcStageProtocol inp = ⟨.error .noTigr, []⟩) ∧
    (ProtoErr.noBase ≠ ProtoErr.noTigr) ∧
    (((feaIntersect hubFeatures fs).contains "BASE" = true ∨
      (feaIntersect hubFeatures fs).contains "BAS0" = true) →
     (feaIntersect hubFeatures fs).contains "TIGR" = true →
       (adcStageProtocol inp).writes.take 1 = [.supported hubFeatures] ∧
       (inp.supWriteOk = true → inp.sidWriteOk = true → inp.flushOk = true →
         adcStageProtocol inp =
           ⟨.ok ⟨inp.sid, feaIntersect hubFeatures fs⟩,
            [.supported hubFeatures, .sidAssign inp.sid]⟩)) := by
  unfold adcStageProtocol
  rw [hread]
  simp only
  refine ⟨fun h1 h2 => ?_, fun h1 h2 => ?_, by decide, fun h1 h2 => ?_⟩
  · have m1 : "BASE" ∉ feaIntersect hubFeatures fs := by simpa using h1
    have m2 : "BAS0" ∉ feaIntersect hubFeatures fs := by simpa using h2
    split
    · rfl
    · next hc => exact absurd (by simp [m1, m2]) hc
  · have m1 : "BASE" ∈ feaIntersect hubFeatures fs ∨
        "BAS0" ∈ feaIntersect hubFeatures fs := by
      rcases h1 with h | h
      · exact Or.inl (by simpa using h)
      · exact Or.inr (by simpa using h)
    have mt : "TIGR" ∉ feaIntersect hubFeatures fs := by simpa using h2
    split
    · next hc =>
      exfalso
      have hc2 : "BASE" ∉ feaIntersect hubFeatures fs ∧
          "BAS0" ∉ feaIntersect hubFeatures fs := by simpa using hc
      rcases m1 with h | h
      · exact hc2.1 h
      · exact hc2.2 h
    · split
      · rfl
      · next ht => exact absurd (by simp [mt]) ht
  · have m1 : "BASE" ∈ feaIntersect hubFeatures fs ∨
        "BAS0" ∈ feaIntersect hubFeatures fs := by
      rcases h1 with h | h
      · exact Or.inl (by simpa using h)
      · exact Or.inr (by simpa using h)
    have mt : "TIGR" ∈ feaIntersect hubFeatures fs := by simpa using h2
    constructor
    · split
      · next hc =>
        exfalso
        have hc2 : "BASE" ∉ feaIntersect hubFeatures fs ∧
            "BAS0" ∉ feaIntersect hubFeatures fs := by simpa using hc
        rcases m1 with h | h
        · exact hc2.1 h
        · exact hc2.2 h
      · split
        · next ht =>
          exact absurd mt (by simpa using ht)
        · split
          · simp
          · split
            · simp
            · split <;> simp
    · intro w1 w2 w3
      split
      · next hc =>
        exfalso
        have hc2 : "BASE" ∉ feaIntersect hubFeatures fs ∧
            "BAS0" ∉ feaIntersect hubFeatures fs := by simpa using hc
        rcases m1 with h | h
        · exact hc2.1 h
        · exact hc2.2 h
      · split
        · next ht =>
          exact absurd mt (by simpa using ht)
        · simp [w1, w2, w3]

/-- Concrete Protocol input announcing BASE and TIGR. -/
def supAll : ProtoIn :=
  { read := .sup ["BASE", "TIGR"], sid := 3, supWriteOk := true,
    sidWriteOk := true, flushOk := true }

/-- Concrete Protocol input announcing BASE only. -/
def supNoTigr : ProtoIn := { supAll with read := .sup ["BASE"] }

/-- Concrete Protocol input announcing TIGR only. -/
def supNoBase : ProtoIn := { supAll with read := .sup ["TIGR"] }

/-- Witness for the feature-negotiation theorem at three concrete runs. -/
theorem protocol_feature_negotiation_witness :
    adcStageProtocol supNoBase = ⟨.error .noBase, []⟩ ∧
    adcStageProtocol supNoTigr = ⟨.error .noTigr, []⟩ ∧
    adcStageProtocol supAll =
      ⟨.ok ⟨3, ["BASE", "TIGR"]⟩,
       [.supported hubFeatures, .sidAssign 3]⟩ :=
  ⟨(protocol_feature_negotiation supNoBase ["TIGR"] rfl).1
      (by decide) (by decide),
   (protocol_feature_negotiation supNoTigr ["BASE"] rfl).2.1
      (Or.inl (by decide)) (by decide),
   ((protocol_feature_negotiation supAll ["BASE", "TIGR"] rfl).2.2.2
      (Or.inl (by decide)) (by decide)).2 rfl rfl rfl⟩

/-! ## C6: broadcast fan-out includes the sender -/

/-- Helper: every native peer present in the fan-out list receives the
packet verbatim. -/
theorem adcBroadcast_mem (p : Packet) (peers : List Peer) (q : AdcPeerRec)
    (hq : Peer.adc q ∈ peers) :
    (q, p) ∈ (adcBroadcast p peers).adcWrites := by
  induction peers with
  | nil => cases hq
  | cons hd tl ih =>
    cases hd with
    | adc pr =>
      unfold adcBroadcast
      rcases List.mem_cons.mp hq with he | hm
      · cases he
        simp
      · simp [ih hm]
    | foreign s n =>
      unfold adcBroadcast
      rcases List.mem_cons.mp hq with he | hm
      · cases he
      · simpa using ih hm

/-- C6: a Broadcast packet read from admitted peer A with A's own SID is
handed to the fan-out with the `h.Peers()` snapshot; that snapshot is the
full admitted set, so it contains A itself, and `adcBroadcast` writes the
packet verbatim (and flushes) to every native peer of the snapshot — in
particular to A, which therefore receives its own broadcast. -/
theorem broadcast_reaches_snapshot_and_self (st : PeersState)
    (A : AdcPeerRec) (p : Packet)
    (hadm : st.bySID.lookup A.sid = some (Peer.adc A)) :
    Peer.adc A ∈ listPeers st ∧
    (∀ q : AdcPeerRec, Peer.adc q ∈ listPeers st →
       (q, p) ∈ (adcBroadcast p (listPeers st)).adcWrites) ∧
    (A, p) ∈ (adcBroadcast p (listPeers st)).adcWrites ∧
    (∀ body evs,
       (adcServePeer A.sid
          (.pkt (.broadcast A.sid body) true true :: evs)).broadcasts =
         Packet.broadcast A.sid body ::
           (adcServePeer A.sid evs).broadcasts) := by
  have hm : Peer.adc A ∈ listPeers st := lookup_some_mem_values _ _ _ hadm
  refine ⟨hm, fun q hq => adcBroadcast_mem p _ q hq,
    adcBroadcast_mem p _ A hm, fun body evs => ?_⟩
  simp only [adcServePeer]
  simp

/-- Registry with `alice` (SID 7) and `bob` (SID 3) admitted. -/
def twoPeerState : PeersState :=
  ⟨[], [], [(7, Peer.adc alicePeer), (3, Peer.adc bobPeer)],
   [(5, Peer.adc alicePeer), (9, Peer.adc bobPeer)],
   [("alice", Peer.adc alicePeer), ("bob", Peer.adc bobPeer)]⟩

/-- Witness: alice's broadcast is written to bob and to alice herself. -/
theorem broadcast_reaches_snapshot_and_self_witness :
    Peer.adc alicePeer ∈ listPeers twoPeerState ∧
    (alicePeer, Packet.broadcast 7 "hi") ∈
      (adcBroadcast (Packet.broadcast 7 "hi")
        (listPeers twoPeerState)).adcWrites ∧
    (bobPeer, Packet.broadcast 7 "hi") ∈
      (adcBroadcast (Packet.broadcast 7 "hi")
        (listPeers twoPeerState)).adcWrites :=
  ⟨(broadcast_reaches_snapshot_and_self twoPeerState alicePeer
      (Packet.broadcast 7 "hi") rfl).1,
   (broadcast_reaches_snapshot_and_self twoPeerState alicePeer
      (Packet.broadcast 7 "hi") rfl).2.2.1,
   (broadcast_reaches_snapshot_and_self twoPeerState alicePeer
      (Packet.broadcast 7 "hi") rfl).2.1 bobPeer (by decide)⟩

/-! ## C10: the serving loop skips unhandled packet kinds -/

/-- An event that makes the serving loop stop: end-of-stream, a read
error, a SID-mismatched Broadcast/Echo/Direct, or a transport failure on
the echo write-back. -/
def terminatingEvent (sid : SID) (ev : ReadEvent) : Bool :=
  match ev with
  | .eof => true
  | .readErr => true
  | .pkt (.broadcast i _) _ _ => sid != i
  | .pkt (.echo i _ _) w f => sid != i || !w || !f
  | .pkt (.direct i _ _) _ _ => sid != i
  | .pkt (.info _) _ _ => false
  | .pkt (.hubDirected _) _ _ => false

/-- C10: a packet that is not Broadcast, Echo or Direct is neither routed
nor treated as an error — the loop records it as logged-only and continues
with the rest of the stream unchanged; and a stream containing no
terminating event (no EOF, no read error, no SID-mismatched
Broadcast/Echo/Direct, no failed echo write-back) never makes the loop
stop. -/
theorem serve_skips_unhandled (sid : SID) :
    (∀ body w f evs,
       adcServePeer sid (.pkt (.info body) w f :: evs) =
         { adcServePeer sid evs with
             unhandled := Packet.info body ::
               (adcServePeer sid evs).unhandled }) ∧
    (∀ body w f evs,
       adcServePeer sid (.pkt (.hubDirected body) w f :: evs) =
         { adcServePeer sid evs with
             unhandled := Packet.hubDirected body ::
               (adcServePeer sid evs).unhandled }) ∧
    (∀ evs, (∀ ev ∈ evs, terminatingEvent sid ev = false) →
       (adcServePeer sid evs).exit = .fuelOut) := by
  refine ⟨fun body w f evs => rfl, fun body w f evs => rfl, fun evs => ?_⟩
  induction evs with
  | nil => intro _; rfl
  | cons ev rest ih =>
    intro h
    have hev := h ev (List.mem_cons_self ev rest)
    have hrest := ih fun e he => h e (List.mem_cons_of_mem ev he)
    cases ev with
    | eof => simp [terminatingEvent] at hev
    | readErr => simp [terminatingEvent] at hev
    | pkt p w f =>
      cases p with
      | broadcast i body =>
        have hi : (sid != i) = false := by
          simpa [terminatingEvent] using hev
        simp only [adcServePeer, hi, Bool.false_eq_true, if_false]
        exact hrest
      | echo i targ body =>
        have hi : (sid = i ∧ w = true) ∧ f = true := by
          simpa [terminatingEvent] using hev
        obtain ⟨⟨h1, h2⟩, h3⟩ := hi
        have hbne : (sid != i) = false := by simp [h1]
        simp only [adcServePeer, hbne, h2, h3, Bool.false_eq_true,
          Bool.true_eq_false, if_false]
        exact hrest
      | direct i targ body =>
        have hi : (sid != i) = false := by
          simpa [terminatingEvent] using hev
        simp only [adcServePeer, hi, Bool.false_eq_true, if_false]
        exact hrest
      | info body =>
        simp only [adcServePeer]
        exact hrest
      | hubDirected body =>
        simp only [adcServePeer]
        exact hrest

/-- Witness: a stream of an info packet, a hub-directed packet, a valid
broadcast, a valid echo and a valid direct never stops the loop, and an
info packet is only logged. -/
theorem serve_skips_unhandled_witness :
    adcServePeer 7 [.pkt (.info "x") true true] =
      { adcServePeer 7 ([] : List ReadEvent) with
          unhandled := Packet.info "x" ::
            (adcServePeer 7 ([] : List ReadEvent)).unhandled } ∧
    (adcServePeer 7
      [.pkt (.info "x") true true, .pkt (.hubDirected "y") true true,
       .pkt (.broadcast 7 "b") true true, .pkt (.echo 7 3 "e") true true,
       .pkt (.direct 7 3 "d") true true]).exit = .fuelOut :=
  ⟨(serve_skips_unhandled 7).1 "x" true true [],
   (serve_skips_unhandled 7).2.2
      [.pkt (.info "x") true true, .pkt (.hubDirected "y") true true,
       .pkt (.broadcast 7 "b") true true, .pkt (.echo 7 3 "e") true true,
       .pkt (.direct 7 3 "d") true true] (by decide)⟩

/-! ## C7: error propagation of the post-reservation writes -/

/-- Identity input whose only failing wire operation is the success-STA
status write of lines 246-250. -/
def c7In : IdentIn :=
  { read := .user ⟨5, some 5, "alice", ""⟩, remoteAddr := "1.2.3.4:1000",
    hubInfoOk := true, statusOk := false, joinListOk := true,
    joinSelfOk := true, env1 := id, env2 := id }

/-- Identity input whose only failing wire operation is the hub-info
write. -/
def c7HubInfoIn : IdentIn := { c7In with statusOk := true, hubInfoOk := false }

/-- Identity input whose only failing wire operation is the user-list
`PeersJoin` write. -/
def c7JoinListIn : IdentIn := { c7In with statusOk := true, joinListOk := false }

/-- Identity input whose only failing wire operation is the own-info
`PeersJoin` write. -/
def c7JoinSelfIn : IdentIn := { c7In with statusOk := true, joinSelfOk := false }

/-- C7 evaluation: of the four post-reservation writes, a failing
hub-info write or a failing `PeersJoin` write makes the stage return an
error with the reservations released (final state back to empty), but a
failing success-STA status write is ignored — the stage still returns
`nil` and admits the peer, because line 246 assigns the write error to
`err` and line 253 overwrites it without any check. -/
theorem status_write_error_ignored :
    (adcStageIdentity idTiger 7 c7In PeersState.empty).ok = true ∧
    (adcStageIdentity idTiger 7 c7In PeersState.empty).fatalSent = none ∧
    (adcStageIdentity idTiger 7 c7HubInfoIn PeersState.empty).ok = false ∧
    (adcStageIdentity idTiger 7 c7HubInfoIn PeersState.empty).finalState =
      PeersState.empty ∧
    (adcStageIdentity idTiger 7 c7JoinListIn PeersState.empty).ok = false ∧
    (adcStageIdentity idTiger 7 c7JoinSelfIn PeersState.empty).ok =
      false := by
  decide
